import Mathlib

/-!
Verification of the cross-database fact synchronization engine of the
`armos_tools` repository, against its natural-language specification.

The shallow embedding below translates the Python source of `src/sync/db.py`
(`upsert_dataframe_to_db`), `src/sync/manager.py` (`run_sync`,
`log_sync_start`, `log_sync_complete`), `src/sync/fact_order.py` and
`src/sync/fact_delivery.py` (extraction query shaping and the empty-frame
skip in the fact processors), and `src/app.py` (`_parse_date`,
`api_sync_run`) into executable Lean definitions, and proves or refutes the
frozen behavioural claims about them.

Modelling conventions:
* a dataframe row is a `key` (tuple of the natural-key columns) paired with
  `data` (all remaining non-timestamp columns); the `last_synced` column is
  carried separately since the spec singles it out;
* wall-clock timestamps are naturals (monotone counter);
* database side effects (staging-table creation, merge execution, staging
  drop) are recorded as an explicit event trace, and the failure of the
  Postgres merge statement is an explicit boolean of the environment;
* Postgres `ON CONFLICT (keys) DO UPDATE` over the staged rows is modelled
  row by row in staged order: a conflicting key updates every non-key
  column in place, a fresh key appends; a staged row whose key was already
  affected by the same statement raises, exactly as Postgres does
  ("cannot affect row a second time").
-/

namespace ArmosTools

/-- A persisted fact row: natural key, non-key non-timestamp columns, and the
`last_synced` timestamp column (from `src/sync/db.py`, which appends
`last_synced` when absent). -/
structure Row (K D : Type) where
  key : K
  data : D
  last_synced : Nat
deriving DecidableEq, Repr

/-- `df.drop_duplicates(subset=unique_columns, keep='first')` from
`src/sync/db.py` line 46: keep the first occurrence per key, preserving the
original row order; `seen` accumulates the keys already kept. -/
def dropDuplicatesByKey {A K : Type} [DecidableEq K] (keyOf : A → K) :
    List K → List A → List A
  | _, [] => []
  | seen, a :: rest =>
    if keyOf a ∈ seen then dropDuplicatesByKey keyOf seen rest
    else a :: dropDuplicatesByKey keyOf (keyOf a :: seen) rest

/-- Effect of one staged row under `INSERT ... ON CONFLICT (keys) DO UPDATE
SET c = EXCLUDED.c` (for every non-key column `c`, `src/sync/db.py` lines
54-60): on a key conflict every non-key column (including `last_synced`) is
overwritten in place; otherwise the row is appended. -/
def mergeRow {K D : Type} [DecidableEq K] (tgt : List (Row K D)) (r : Row K D) :
    List (Row K D) :=
  if ∃ x ∈ tgt, x.key = r.key then
    tgt.map fun x =>
      if x.key = r.key then { x with data := r.data, last_synced := r.last_synced } else x
  else tgt ++ [r]

/-- All staged rows merged in order (total version, assuming no staged row
conflicts twice). -/
def mergeRows {K D : Type} [DecidableEq K] (tgt : List (Row K D))
    (staged : List (Row K D)) : List (Row K D) :=
  staged.foldl mergeRow tgt

/-- The Postgres merge statement over the staged rows: processes staged rows
in order, failing when a staged row conflicts with a target row already
affected by the same statement (the uniqueness assumption that the
deduplication step guards, spec 4.3). `affected` is the set of keys already
inserted or updated by this statement. -/
def mergeRowsE {K D : Type} [DecidableEq K] :
    List (Row K D) → List K → List (Row K D) → Except String (List (Row K D))
  | [], _, tgt => .ok tgt
  | r :: rs, affected, tgt =>
    if r.key ∈ affected then
      .error "ON CONFLICT DO UPDATE command cannot affect row a second time"
    else mergeRowsE rs (r.key :: affected) (mergeRow tgt r)

/-- `f"temp_{table_name}_{datetime.now().strftime('%Y%m%d_%H%M%S')}"` from
`src/sync/db.py` line 48; `tsStr` is the second-resolution formatted
wall-clock string. -/
def tempTableName (tableName tsStr : String) : String :=
  "temp_" ++ tableName ++ "_" ++ tsStr

/-- Observable database side effects of one upsert invocation. -/
inductive UpsertEvent (K D : Type) where
  | createStaging (name : String) (rows : List (Row K D))
  | mergeExec (name : String)
  | dropStaging (name : String)
deriving DecidableEq, Repr

/-- Outcome of one `upsert_dataframe_to_db` call: the event trace, the
staging tables this call leaves behind, the resulting target table, and the
call's result (`.error` models a propagated exception). -/
structure UpsertOutcome (K D : Type) where
  events : List (UpsertEvent K D)
  stagingTables : List String
  target : List (Row K D)
  result : Except String Unit

/-- `DatabaseManager.upsert_dataframe_to_db` (`src/sync/db.py` lines 39-68):
append `last_synced := now` (the pipeline never pre-populates it), dedupe by
the natural-key columns keeping the first occurrence, write the staging
table, run the merge statement, and drop the staging table. The drop only
executes after a successful merge — there is no try/finally in the source —
so a failed merge leaves the staging table behind and propagates the error.
`mergeStatementOk` models whether the database accepts the merge statement
(e.g. `false` on a staged/target column type mismatch). -/
def upsert_dataframe_to_db {K D : Type} [DecidableEq K] (target : List (Row K D))
    (df : List (K × D)) (tableName tsStr : String) (now : Nat)
    (mergeStatementOk : Bool) : UpsertOutcome K D :=
  let dfTs : List (Row K D) := df.map fun p => ⟨p.1, p.2, now⟩
  let deduped := dropDuplicatesByKey Row.key [] dfTs
  let temp := tempTableName tableName tsStr
  let mergeRes : Except String (List (Row K D)) :=
    if mergeStatementOk then mergeRowsE deduped [] target
    else .error "merge statement failed"
  match mergeRes with
  | .ok tgt =>
    ⟨[.createStaging temp deduped, .mergeExec temp, .dropStaging temp], [], tgt, .ok ()⟩
  | .error e =>
    ⟨[.createStaging temp deduped, .mergeExec temp], [temp], target, .error e⟩

/-- The staging tables created by a call, in creation order. -/
def createdStagingNames {K D : Type} (o : UpsertOutcome K D) : List String :=
  o.events.filterMap fun e =>
    match e with
    | .createStaging n _ => some n
    | _ => none

/-- A target row without its `last_synced` column (the projection the spec's
idempotence property compares). -/
def projRow {K D : Type} (r : Row K D) : K × D := (r.key, r.data)

/-- A target table without its `last_synced` column. -/
def projTable {K D : Type} (tgt : List (Row K D)) : List (K × D) :=
  tgt.map projRow

/-- Timestamp-erased image of `mergeRow` (proof device: the merge acts the
same way on the non-timestamp columns). -/
def mergeRowP {K D : Type} [DecidableEq K] (tgt : List (K × D)) (p : K × D) :
    List (K × D) :=
  if ∃ x ∈ tgt, x.1 = p.1 then
    tgt.map fun x => if x.1 = p.1 then (x.1, p.2) else x
  else tgt ++ [p]

/-- Timestamp-erased image of `mergeRows`. -/
def mergeRowsP {K D : Type} [DecidableEq K] (tgt : List (K × D))
    (ps : List (K × D)) : List (K × D) :=
  ps.foldl mergeRowP tgt

/-- The non-key columns stored for key `k` (first matching row). -/
def lookupP {K D : Type} [DecidableEq K] (k : K) (tgt : List (K × D)) : Option D :=
  (tgt.find? fun x => decide (x.1 = k)).map Prod.snd

theorem mergeRowsP_nil {K D : Type} [DecidableEq K] (tgt : List (K × D)) :
    mergeRowsP tgt [] = tgt := rfl

theorem mergeRowsP_cons {K D : Type} [DecidableEq K] (tgt : List (K × D))
    (p : K × D) (ps : List (K × D)) :
    mergeRowsP tgt (p :: ps) = mergeRowsP (mergeRowP tgt p) ps := rfl

theorem dropDuplicatesByKey_sublist {A K : Type} [DecidableEq K] (keyOf : A → K)
    (seen : List K) (l : List A) : (dropDuplicatesByKey keyOf seen l).Sublist l := by
  induction l generalizing seen with
  | nil => simp [dropDuplicatesByKey]
  | cons a rest ih =>
    simp only [dropDuplicatesByKey]
    split
    · exact (ih seen).cons a
    · exact (ih _).cons₂ a

theorem mem_keys_dropDuplicatesByKey_not_seen {A K : Type} [DecidableEq K]
    (keyOf : A → K) (seen : List K) (l : List A) (k : K)
    (h : k ∈ (dropDuplicatesByKey keyOf seen l).map keyOf) : k ∉ seen := by
  induction l generalizing seen with
  | nil => simp [dropDuplicatesByKey] at h
  | cons a rest ih =>
    simp only [dropDuplicatesByKey] at h
    split at h
    · exact ih seen h
    · rename_i hna
      simp only [List.map_cons, List.mem_cons] at h
      rcases h with h | h
      · exact h ▸ hna
      · intro hk
        exact ih (keyOf a :: seen) h (List.mem_cons_of_mem _ hk)

theorem keys_dropDuplicatesByKey_nodup {A K : Type} [DecidableEq K]
    (keyOf : A → K) (seen : List K) (l : List A) :
    ((dropDuplicatesByKey keyOf seen l).map keyOf).Nodup := by
  induction l generalizing seen with
  | nil => simp [dropDuplicatesByKey]
  | cons a rest ih =>
    simp only [dropDuplicatesByKey]
    split
    · exact ih seen
    · simp only [List.map_cons, List.nodup_cons]
      refine ⟨?_, ih _⟩
      intro hmem
      exact mem_keys_dropDuplicatesByKey_not_seen keyOf _ rest (keyOf a) hmem
        (List.mem_cons_self _ _)

theorem find?_dropDuplicatesByKey {A K : Type} [DecidableEq K] (keyOf : A → K)
    (seen : List K) (l : List A) (k : K) (hk : k ∉ seen) :
    (dropDuplicatesByKey keyOf seen l).find? (fun a => decide (keyOf a = k)) =
      l.find? (fun a => decide (keyOf a = k)) := by
  induction l generalizing seen with
  | nil => rfl
  | cons a rest ih =>
    simp only [dropDuplicatesByKey]
    by_cases hak : keyOf a = k
    · have hna : keyOf a ∉ seen := hak ▸ hk
      rw [if_neg hna, List.find?_cons_of_pos _ (by simp [hak]),
        List.find?_cons_of_pos _ (by simp [hak])]
    · by_cases hseen : keyOf a ∈ seen
      · rw [if_pos hseen, ih seen hk, List.find?_cons_of_neg _ (by simp [hak])]
      · rw [if_neg hseen, List.find?_cons_of_neg _ (by simp [hak]),
          List.find?_cons_of_neg _ (by simp [hak])]
        apply ih
        intro hmem
        rcases List.mem_cons.mp hmem with h | h
        · exact hak h.symm
        · exact hk h

theorem keysP_mergeRowP {K D : Type} [DecidableEq K] (tgt : List (K × D)) (p : K × D) :
    (mergeRowP tgt p).map Prod.fst =
      if ∃ x ∈ tgt, x.1 = p.1 then tgt.map Prod.fst
      else tgt.map Prod.fst ++ [p.1] := by
  by_cases h : ∃ x ∈ tgt, x.1 = p.1
  · rw [mergeRowP, if_pos h, if_pos h, List.map_map]
    apply List.map_congr_left
    intro x _
    by_cases hxk : x.1 = p.1 <;> simp [Function.comp, hxk]
  · rw [mergeRowP, if_neg h, if_neg h, List.map_append]
    rfl

theorem mem_keysP_mergeRowP_self {K D : Type} [DecidableEq K]
    (tgt : List (K × D)) (p : K × D) :
    p.1 ∈ (mergeRowP tgt p).map Prod.fst := by
  rw [keysP_mergeRowP]
  split
  · rename_i h
    rcases h with ⟨x, hx, hkx⟩
    exact hkx ▸ List.mem_map_of_mem Prod.fst hx
  · simp

theorem mem_keysP_mergeRowP_mono {K D : Type} [DecidableEq K]
    (tgt : List (K × D)) (p : K × D) (k : K) (h : k ∈ tgt.map Prod.fst) :
    k ∈ (mergeRowP tgt p).map Prod.fst := by
  rw [keysP_mergeRowP]
  split
  · exact h
  · exact List.mem_append_left _ h

theorem mem_keysP_mergeRowsP_mono {K D : Type} [DecidableEq K]
    (ps : List (K × D)) (tgt : List (K × D)) (k : K)
    (h : k ∈ tgt.map Prod.fst) :
    k ∈ (mergeRowsP tgt ps).map Prod.fst := by
  induction ps generalizing tgt with
  | nil => exact h
  | cons p ps ih => exact ih _ (mem_keysP_mergeRowP_mono tgt p k h)

theorem dataAt_mergeRowP_establish {K D : Type} [DecidableEq K]
    (tgt : List (K × D)) (p : K × D) :
    ∀ x ∈ mergeRowP tgt p, x.1 = p.1 → x.2 = p.2 := by
  intro x hx hk
  rw [mergeRowP] at hx
  split at hx
  · rcases List.mem_map.mp hx with ⟨y, hy, hxy⟩
    by_cases hyk : y.1 = p.1
    · rw [if_pos hyk] at hxy
      rw [← hxy]
    · rw [if_neg hyk] at hxy
      exact absurd (hxy ▸ hk) hyk
  · rename_i hno
    rcases List.mem_append.mp hx with hx | hx
    · exact absurd ⟨x, hx, hk⟩ hno
    · rw [List.mem_singleton.mp hx]

theorem dataAt_mergeRowP_preserve {K D : Type} [DecidableEq K]
    (tgt : List (K × D)) (p : K × D) (k : K) (d : D) (hne : p.1 ≠ k)
    (h : ∀ x ∈ tgt, x.1 = k → x.2 = d) :
    ∀ x ∈ mergeRowP tgt p, x.1 = k → x.2 = d := by
  intro x hx hk
  rw [mergeRowP] at hx
  split at hx
  · rcases List.mem_map.mp hx with ⟨y, hy, hxy⟩
    by_cases hyk : y.1 = p.1
    · rw [if_pos hyk] at hxy
      rw [← hxy] at hk
      exact absurd (hyk ▸ hk) hne
    · rw [if_neg hyk] at hxy
      exact h x (hxy ▸ hy) hk
  · rcases List.mem_append.mp hx with hx | hx
    · exact h x hx hk
    · exact absurd ((List.mem_singleton.mp hx) ▸ hk : p.1 = k) hne

theorem dataAt_mergeRowsP_preserve {K D : Type} [DecidableEq K]
    (ps : List (K × D)) (k : K) (d : D) :
    ∀ (tgt : List (K × D)), k ∉ ps.map Prod.fst →
      (∀ x ∈ tgt, x.1 = k → x.2 = d) →
      ∀ x ∈ mergeRowsP tgt ps, x.1 = k → x.2 = d := by
  induction ps with
  | nil =>
    intro tgt _ h
    exact h
  | cons p ps ih =>
    intro tgt hk h
    simp only [List.map_cons, List.mem_cons] at hk
    push_neg at hk
    exact ih (mergeRowP tgt p) hk.2
      (dataAt_mergeRowP_preserve tgt p k d (fun he => hk.1 he.symm) h)

theorem mergeRowP_self_id {K D : Type} [DecidableEq K]
    (tgt : List (K × D)) (p : K × D) (hp : p.1 ∈ tgt.map Prod.fst)
    (hd : ∀ x ∈ tgt, x.1 = p.1 → x.2 = p.2) :
    mergeRowP tgt p = tgt := by
  have hex : ∃ x ∈ tgt, x.1 = p.1 := by
    rcases List.mem_map.mp hp with ⟨x, hx, hk⟩
    exact ⟨x, hx, hk⟩
  rw [mergeRowP, if_pos hex]
  conv_rhs => rw [← List.map_id tgt]
  apply List.map_congr_left
  intro x hx
  by_cases hxk : x.1 = p.1
  · rw [if_pos hxk, ← hd x hx hxk]
    rfl
  · rw [if_neg hxk]
    rfl

theorem mergeRowsP_idem {K D : Type} [DecidableEq K] (ps : List (K × D))
    (hnd : (ps.map Prod.fst).Nodup) (tgt : List (K × D)) :
    mergeRowsP (mergeRowsP tgt ps) ps = mergeRowsP tgt ps := by
  induction ps generalizing tgt with
  | nil => rfl
  | cons p ps ih =>
    simp only [List.map_cons, List.nodup_cons] at hnd
    obtain ⟨hp, hnd2⟩ := hnd
    simp only [mergeRowsP_cons]
    have hid : mergeRowP (mergeRowsP (mergeRowP tgt p) ps) p =
        mergeRowsP (mergeRowP tgt p) ps := by
      apply mergeRowP_self_id
      · exact mem_keysP_mergeRowsP_mono ps _ _ (mem_keysP_mergeRowP_self tgt p)
      · exact dataAt_mergeRowsP_preserve ps p.1 p.2 _ hp
          (dataAt_mergeRowP_establish tgt p)
    rw [hid]
    exact ih hnd2 _

theorem projTable_mergeRow {K D : Type} [DecidableEq K]
    (tgt : List (Row K D)) (r : Row K D) :
    projTable (mergeRow tgt r) = mergeRowP (projTable tgt) (projRow r) := by
  have hcond : (∃ x ∈ tgt, x.key = r.key) ↔
      ∃ y ∈ projTable tgt, y.1 = (projRow r).1 := by
    constructor
    · rintro ⟨x, hx, hk⟩
      exact ⟨projRow x, List.mem_map_of_mem _ hx, hk⟩
    · rintro ⟨y, hy, hk⟩
      rcases List.mem_map.mp hy with ⟨x, hx, rfl⟩
      exact ⟨x, hx, hk⟩
  by_cases h : ∃ x ∈ tgt, x.key = r.key
  · rw [mergeRow, mergeRowP, if_pos h, if_pos (hcond.mp h)]
    unfold projTable
    rw [List.map_map, List.map_map]
    apply List.map_congr_left
    intro x _
    by_cases hxk : x.key = r.key <;> simp [Function.comp, projRow, hxk]
  · rw [mergeRow, mergeRowP, if_neg h, if_neg (fun hc => h (hcond.mpr hc))]
    simp [projTable, projRow]

theorem projTable_mergeRows {K D : Type} [DecidableEq K]
    (staged : List (Row K D)) (tgt : List (Row K D)) :
    projTable (mergeRows tgt staged) =
      mergeRowsP (projTable tgt) (staged.map projRow) := by
  induction staged generalizing tgt with
  | nil => rfl
  | cons r rs ih =>
    rw [show mergeRows tgt (r :: rs) = mergeRows (mergeRow tgt r) rs from rfl,
      List.map_cons, mergeRowsP_cons, ih, projTable_mergeRow]

theorem mergeRowsE_eq_ok {K D : Type} [DecidableEq K] (staged : List (Row K D))
    (affected : List K) (tgt : List (Row K D))
    (hnd : (staged.map Row.key).Nodup)
    (hdisj : ∀ k ∈ staged.map Row.key, k ∉ affected) :
    mergeRowsE staged affected tgt = .ok (mergeRows tgt staged) := by
  induction staged generalizing affected tgt with
  | nil => rfl
  | cons r rs ih =>
    simp only [List.map_cons, List.nodup_cons] at hnd
    rw [mergeRowsE, if_neg (hdisj r.key (by simp))]
    refine ih _ _ hnd.2 ?_
    intro k hk hmem
    rcases List.mem_cons.mp hmem with h | h
    · exact hnd.1 (h ▸ hk)
    · exact hdisj k (List.mem_cons_of_mem _ hk) h

theorem projRow_dropDuplicates {K D : Type} [DecidableEq K]
    (df : List (K × D)) (now : Nat) (seen : List K) :
    (dropDuplicatesByKey Row.key seen
        (df.map fun p => (⟨p.1, p.2, now⟩ : Row K D))).map projRow
      = dropDuplicatesByKey Prod.fst seen df := by
  induction df generalizing seen with
  | nil => rfl
  | cons p ps ih =>
    simp only [List.map_cons, dropDuplicatesByKey]
    by_cases h : p.1 ∈ seen
    · rw [if_pos h, if_pos h]
      exact ih seen
    · rw [if_neg h, if_neg h, List.map_cons, ih]
      rfl

/-- `upsert_dataframe_to_db` with a merge the database accepts: the dedup
guarantees the merge statement never hits the affect-twice error, so the
call succeeds, stages, merges and drops. -/
theorem upsert_ok {K D : Type} [DecidableEq K] (target : List (Row K D))
    (df : List (K × D)) (tableName tsStr : String) (now : Nat) :
    upsert_dataframe_to_db target df tableName tsStr now true =
      ⟨[.createStaging (tempTableName tableName tsStr)
          (dropDuplicatesByKey Row.key [] (df.map fun p => ⟨p.1, p.2, now⟩)),
        .mergeExec (tempTableName tableName tsStr),
        .dropStaging (tempTableName tableName tsStr)],
       [],
       mergeRows target (dropDuplicatesByKey Row.key [] (df.map fun p => ⟨p.1, p.2, now⟩)),
       .ok ()⟩ := by
  rw [upsert_dataframe_to_db]
  simp only [if_true]
  rw [mergeRowsE_eq_ok _ _ _
    (keys_dropDuplicatesByKey_nodup Row.key [] _)
    (by intro k _ hmem; exact (List.not_mem_nil k) hmem)]

theorem lookupP_mergeRowP {K D : Type} [DecidableEq K] (tgt : List (K × D))
    (q : K × D) (k : K) :
    lookupP k (mergeRowP tgt q) = if k = q.1 then some q.2 else lookupP k tgt := by
  simp only [lookupP, mergeRowP]
  by_cases hpres : ∃ x ∈ tgt, x.1 = q.1
  · rw [if_pos hpres, List.find?_map]
    have hpred : ((fun x : K × D => decide (x.1 = k)) ∘
        fun x : K × D => if x.1 = q.1 then (x.1, q.2) else x) =
        fun x : K × D => decide (x.1 = k) := by
      funext x
      by_cases hx : x.1 = q.1 <;> simp [Function.comp, hx]
    rw [hpred]
    by_cases hk : k = q.1
    · rw [if_pos hk]
      have hsome : (tgt.find? fun x : K × D => decide (x.1 = k)).isSome := by
        rw [List.find?_isSome]
        rcases hpres with ⟨x, hx, hxk⟩
        exact ⟨x, hx, by simp [hxk, hk]⟩
      rcases Option.isSome_iff_exists.mp hsome with ⟨x0, hx0⟩
      have hx0k : x0.1 = k := by simpa using List.find?_some hx0
      rw [hx0]
      show some (if x0.1 = q.1 then (x0.1, q.2) else x0).2 = some q.2
      rw [if_pos (hx0k.trans hk)]
    · rw [if_neg hk]
      cases hfind : tgt.find? fun x : K × D => decide (x.1 = k) with
      | none => rfl
      | some x0 =>
        have hx0k : x0.1 = k := by simpa using List.find?_some hfind
        show some (if x0.1 = q.1 then (x0.1, q.2) else x0).2 = some x0.2
        rw [if_neg (fun h => hk (hx0k.symm.trans h))]
  · rw [if_neg hpres, List.find?_append]
    cases hfind : tgt.find? fun x : K × D => decide (x.1 = k) with
    | none =>
      show (([q].find? fun x : K × D => decide (x.1 = k)).map Prod.snd) = _
      by_cases hk : k = q.1
      · rw [if_pos hk, List.find?_cons_of_pos _ (by simp [hk])]
        rfl
      · rw [if_neg hk, List.find?_cons_of_neg _ (by
          simp only [decide_eq_true_eq]
          exact fun h => hk h.symm)]
        rfl
    | some x0 =>
      have hx0k : x0.1 = k := by simpa using List.find?_some hfind
      have hk : ¬k = q.1 := by
        intro hkq
        exact hpres ⟨x0, List.mem_of_find?_eq_some hfind, hx0k.trans hkq⟩
      rw [if_neg hk]
      rfl

theorem lookupP_mergeRowsP_not_mem {K D : Type} [DecidableEq K]
    (ps : List (K × D)) (k : K) :
    k ∉ ps.map Prod.fst →
      ∀ tgt, lookupP k (mergeRowsP tgt ps) = lookupP k tgt := by
  induction ps with
  | nil =>
    intro _ tgt
    rfl
  | cons p ps ih =>
    intro hk tgt
    simp only [List.map_cons, List.mem_cons] at hk
    push_neg at hk
    rw [mergeRowsP_cons, ih hk.2 _, lookupP_mergeRowP, if_neg hk.1]

theorem lookupP_mergeRowsP_mem {K D : Type} [DecidableEq K]
    (ps : List (K × D)) (k : K) :
    (ps.map Prod.fst).Nodup → ∀ p ∈ ps, p.1 = k →
      ∀ tgt, lookupP k (mergeRowsP tgt ps) = some p.2 := by
  induction ps with
  | nil =>
    intro _ p hp
    exact absurd hp (List.not_mem_nil p)
  | cons q ps ih =>
    intro hnd p hp hpk tgt
    simp only [List.map_cons, List.nodup_cons] at hnd
    rcases List.mem_cons.mp hp with rfl | hp2
    · rw [mergeRowsP_cons, lookupP_mergeRowsP_not_mem ps k (hpk ▸ hnd.1) _,
        lookupP_mergeRowP, if_pos hpk.symm]
    · rw [mergeRowsP_cons]
      exact ih hnd.2 p hp2 hpk _

theorem find?_key_projTable {K D : Type} [DecidableEq K]
    (tgt : List (Row K D)) (k : K) :
    lookupP k (projTable tgt) = (tgt.find? fun x => decide (x.key = k)).map Row.data := by
  induction tgt with
  | nil => rfl
  | cons r rs ih =>
    simp only [projTable, List.map_cons, lookupP]
    by_cases h : r.key = k
    · rw [List.find?_cons_of_pos _ (by simp [projRow, h]),
        List.find?_cons_of_pos _ (by simp [h])]
      rfl
    · rw [List.find?_cons_of_neg _ (by simp [projRow, h]),
        List.find?_cons_of_neg _ (by simp [h])]
      exact ih

/-- `process_fact_order` (`src/sync/fact_order.py` lines 87-103), restricted
to its staging/merge behaviour: extraction and the pandas date coercions are
modelled by taking the already-extracted, already-coerced row set as input.
The processor returns before any upsert when the extracted frame is empty
(`if df.empty: return`, lines 101-102); otherwise it upserts into
`tms_fact_order` keyed on `order_id`. -/
def process_fact_order {K D : Type} [DecidableEq K] (extracted : List (K × D))
    (target : List (Row K D)) (tsStr : String) (now : Nat)
    (mergeStatementOk : Bool) : UpsertOutcome K D :=
  if extracted.isEmpty then ⟨[], [], target, .ok ()⟩
  else upsert_dataframe_to_db target extracted "tms_fact_order" tsStr now mergeStatementOk

/-- C1: upsert is idempotent. Running `upsert_dataframe_to_db` twice in
succession with the same row set, target table and natural-key columns
succeeds both times, and the doubled run leaves the target with exactly the
same rows and non-timestamp column values as the single run; only the
`last_synced` column (erased by `projTable`) may differ. -/
theorem upsert_idempotent {K D : Type} [DecidableEq K] (target : List (Row K D))
    (df : List (K × D)) (tableName s1 s2 : String) (t1 t2 : Nat) :
    (upsert_dataframe_to_db target df tableName s1 t1 true).result = .ok ()
    ∧ (upsert_dataframe_to_db
        (upsert_dataframe_to_db target df tableName s1 t1 true).target
        df tableName s2 t2 true).result = .ok ()
    ∧ projTable (upsert_dataframe_to_db
        (upsert_dataframe_to_db target df tableName s1 t1 true).target
        df tableName s2 t2 true).target
      = projTable (upsert_dataframe_to_db target df tableName s1 t1 true).target := by
  simp only [upsert_ok]
  refine ⟨trivial, trivial, ?_⟩
  rw [projTable_mergeRows, projTable_mergeRows, projRow_dropDuplicates,
    projRow_dropDuplicates]
  exact mergeRowsP_idem _ (keys_dropDuplicatesByKey_nodup Prod.fst [] df) _

/-- C3: the upsert deduplicates the input by the natural-key columns before
staging, keeping the first occurrence per key in the original row order (the
staged batch is an order-preserving subsequence of the input), so the first
occurrence's non-key values are the ones persisted for that key. -/
theorem upsert_dedup_keeps_first_occurrence {K D : Type} [DecidableEq K]
    (target : List (Row K D)) (df : List (K × D)) (tableName tsStr : String)
    (now : Nat) (k : K) (p : K × D)
    (hfirst : df.find? (fun q => decide (q.1 = k)) = some p) :
    (upsert_dataframe_to_db target df tableName tsStr now true).result = .ok ()
    ∧ ((upsert_dataframe_to_db target df tableName tsStr now true).target.find?
        (fun x => decide (x.key = k))).map Row.data = some p.2
    ∧ (dropDuplicatesByKey Row.key
        (([] : List K)) (df.map fun q => (⟨q.1, q.2, now⟩ : Row K D))).Sublist
        (df.map fun q => ⟨q.1, q.2, now⟩) := by
  simp only [upsert_ok]
  refine ⟨trivial, ?_, dropDuplicatesByKey_sublist Row.key [] _⟩
  rw [← find?_key_projTable, projTable_mergeRows, projRow_dropDuplicates]
  have hfind : (dropDuplicatesByKey Prod.fst [] df).find?
      (fun q => decide (q.1 = k)) = some p := by
    rw [find?_dropDuplicatesByKey Prod.fst [] df k (List.not_mem_nil k)]
    exact hfirst
  have hmem : p ∈ dropDuplicatesByKey Prod.fst [] df :=
    List.mem_of_find?_eq_some hfind
  have hpk : p.1 = k := by simpa using List.find?_some hfind
  exact lookupP_mergeRowsP_mem _ k
    (keys_dropDuplicatesByKey_nodup Prod.fst [] df) p hmem hpk _

/-- Witness for C3 at a concrete batch in which key 1 occurs twice with
different non-key values: the first occurrence's value 10 is persisted. -/
theorem upsert_dedup_keeps_first_occurrence_witness :
    ([((1 : Nat), (10 : Nat)), (2, 20), (1, 30)].find?
        (fun q => decide (q.1 = 1)) = some (1, 10))
    ∧ (((upsert_dataframe_to_db ([] : List (Row Nat Nat))
          [(1, 10), (2, 20), (1, 30)] "tms_fact_order" "20250101_120000"
          7 true).target.find?
        (fun x => decide (x.key = 1))).map Row.data = some 10) := by
  refine ⟨by decide, ?_⟩
  have h := upsert_dedup_keeps_first_occurrence ([] : List (Row Nat Nat))
    [(1, 10), (2, 20), (1, 30)] "tms_fact_order" "20250101_120000" 7 1 (1, 10)
    (by decide)
  exact h.2.1

/-- C2 (code bug): when the merge statement fails, the staging table is NOT
dropped — the source issues the `DROP TABLE` only after a successful merge,
without try/finally — so after the failed call the staging table still
exists, the drop never appears in the event trace, the target is unchanged,
and the error propagates to the caller. -/
theorem upsert_merge_failure_keeps_staging {K D : Type} [DecidableEq K]
    (target : List (Row K D)) (df : List (K × D)) (tableName tsStr : String)
    (now : Nat) :
    (upsert_dataframe_to_db target df tableName tsStr now false).stagingTables
      = [tempTableName tableName tsStr]
    ∧ (upsert_dataframe_to_db target df tableName tsStr now false).result
      = .error "merge statement failed"
    ∧ UpsertEvent.dropStaging (tempTableName tableName tsStr)
        ∉ (upsert_dataframe_to_db target df tableName tsStr now false).events
    ∧ (upsert_dataframe_to_db target df tableName tsStr now false).target
      = target := by
  refine ⟨rfl, rfl, ?_, rfl⟩
  intro hmem
  simp [upsert_dataframe_to_db] at hmem

/-- C6 as stated is false of the upsert itself: invoked on an empty row set
it does NOT skip staging — it still creates a (empty) staging table — though
the target table is left unchanged. -/
theorem upsert_empty_creates_staging :
    UpsertEvent.createStaging (tempTableName "tms_fact_order" "20250101_120000")
        ([] : List (Row Nat Nat))
      ∈ (upsert_dataframe_to_db ([] : List (Row Nat Nat)) []
          "tms_fact_order" "20250101_120000" 0 true).events
    ∧ (upsert_dataframe_to_db ([] : List (Row Nat Nat)) []
        "tms_fact_order" "20250101_120000" 0 true).target = [] := by
  exact ⟨List.mem_cons_self _ _, rfl⟩

/-- C6 amended: the empty-input skip lives in the fact processor, not in the
upsert: on an empty extracted row set `process_fact_order` performs no
database action at all (no staging table, target unchanged, success), while
`upsert_dataframe_to_db` itself on an empty row set still leaves the target
unchanged (but does stage, see `upsert_empty_creates_staging`). -/
theorem process_fact_order_empty_noop {K D : Type} [DecidableEq K]
    (target : List (Row K D)) (tsStr : String) (now : Nat)
    (mergeStatementOk : Bool) :
    (process_fact_order ([] : List (K × D)) target tsStr now mergeStatementOk).events = []
    ∧ (process_fact_order ([] : List (K × D)) target tsStr now mergeStatementOk).stagingTables = []
    ∧ (process_fact_order ([] : List (K × D)) target tsStr now mergeStatementOk).target = target
    ∧ (process_fact_order ([] : List (K × D)) target tsStr now mergeStatementOk).result = .ok ()
    ∧ (upsert_dataframe_to_db target ([] : List (K × D))
        "tms_fact_order" tsStr now true).target = target := by
  exact ⟨rfl, rfl, rfl, rfl, rfl⟩

/-- C9 as stated is false: two distinct upsert invocations (here with
different row sets) whose wall clocks format to the same second produce the
SAME staging table name — the name suffix has only second resolution. -/
theorem staging_name_collision_same_second :
    createdStagingNames (upsert_dataframe_to_db ([] : List (Row Nat Nat))
        [(1, 10)] "tms_fact_order" "20250101_120000" 0 true)
      = createdStagingNames (upsert_dataframe_to_db ([] : List (Row Nat Nat))
        [(2, 20)] "tms_fact_order" "20250101_120000" 0 true)
    ∧ ([((1 : Nat), (10 : Nat))] : List (Nat × Nat)) ≠ [(2, 20)] := by
  exact ⟨rfl, by decide⟩

/-- C9 amended: each invocation stages into exactly one table named
`temp_<table>_<formatted timestamp>`; two invocations against the same
target table get different staging names exactly when their wall clocks
format to different second-resolution strings (same-second invocations
collide, see `staging_name_collision_same_second`). -/
theorem staging_name_unique_per_second {K D : Type} [DecidableEq K]
    (target : List (Row K D)) (df : List (K × D)) (tableName s1 s2 : String)
    (now : Nat) (mergeStatementOk : Bool) (hne : s1 ≠ s2) :
    tempTableName tableName s1 ≠ tempTableName tableName s2
    ∧ createdStagingNames
        (upsert_dataframe_to_db target df tableName s1 now mergeStatementOk)
      = [tempTableName tableName s1] := by
  constructor
  · intro h
    apply hne
    have hd := congrArg String.data h
    have hap : ∀ a b : String, (a ++ b).data = a.data ++ b.data := fun a b => rfl
    rw [tempTableName, tempTableName, hap, hap] at hd
    have hsuffix := List.append_cancel_left hd
    cases s1 with
    | mk d1 =>
      cases s2 with
      | mk d2 =>
        exact congrArg String.mk hsuffix
  · rw [upsert_dataframe_to_db]
    cases mergeStatementOk with
    | false => rfl
    | true =>
      simp only [if_true]
      cases hE : mergeRowsE (dropDuplicatesByKey Row.key []
          (df.map fun p => (⟨p.1, p.2, now⟩ : Row K D))) [] target with
      | ok tgt => rfl
      | error e => rfl

/-- Witness for C9 (amended): one second apart, the staging names differ. -/
theorem staging_name_unique_per_second_witness :
    tempTableName "tms_fact_order" "20250101_120000"
      ≠ tempTableName "tms_fact_order" "20250101_120001" := by
  have h := staging_name_unique_per_second ([] : List (Row Nat Nat)) [(1, 10)]
    "tms_fact_order" "20250101_120000" "20250101_120001" 0 true (by decide)
  exact h.1

/-! ## Sync orchestrator (`src/sync/manager.py`)

The audit log `tms_sync_log` is a list of records; `SERIAL` ids are modelled
as a fresh id strictly greater than every id already present.  Wall-clock
`CURRENT_TIMESTAMP` is a monotone counter: the completion update executes
strictly after the start insert, modelled as `t0 + 1`.  The outcomes of the
fact processors (`process_fact_order` / `process_fact_delivery`), including
how many rows each would extract, are an environment; `run_sync` observes
only success or the raised exception's message, exactly as the source
catches `Exception as exc` and stores `str(exc)`. -/

/-- One row of `tms_sync_log` (`src/sync/manager.py` lines 7-19). -/
structure AuditRecord where
  id : Nat
  sync_type : String
  start_time : Nat
  end_time : Option Nat
  status : String
  records_processed : Nat
  error_message : Option String
deriving DecidableEq, Repr

/-- Which fact processors an orchestration invoked, in invocation order. -/
inductive FactStep where
  | order
  | delivery
deriving DecidableEq, Repr

/-- Environment of one orchestration: the outcome of each fact processor
(`.error e` models a raised exception with message `e`) and the number of
rows each would extract and merge (which `run_sync` never reads). -/
structure SyncEnv where
  orderResult : Except String Unit
  deliveryResult : Except String Unit
  orderRowCount : Nat
  deliveryRowCount : Nat

/-- Fresh `SERIAL` id: strictly greater than every id in the log. -/
def nextAuditId (log : List AuditRecord) : Nat :=
  (log.map AuditRecord.id).foldr max 0 + 1

/-- `log_sync_start` (`src/sync/manager.py` lines 26-37): insert a RUNNING
record with `start_time := CURRENT_TIMESTAMP` and return its id;
`records_processed` takes the column default 0. -/
def log_sync_start (log : List AuditRecord) (sync_type : String) (t0 : Nat) :
    List AuditRecord × Nat :=
  let sid := nextAuditId log
  (log ++ [{ id := sid, sync_type := sync_type, start_time := t0,
             end_time := none, status := "RUNNING", records_processed := 0,
             error_message := none }], sid)

/-- `log_sync_complete` (`src/sync/manager.py` lines 40-57): update the
record with id `sid`, setting `end_time`, `status`, `records_processed` and
`error_message`. -/
def log_sync_complete (log : List AuditRecord) (sid : Nat) (status : String)
    (tEnd : Nat) (records_processed : Nat) (error_message : Option String) :
    List AuditRecord :=
  log.map fun r =>
    if r.id = sid then
      { r with end_time := some tEnd, status := status,
               records_processed := records_processed,
               error_message := error_message }
    else r

/-- The fact-processing dispatch inside `run_sync`'s try block
(`src/sync/manager.py` lines 104-112): which processors run (in order) and
the resulting outcome; for `"both"` the Order processor runs first and a
failure there prevents the Delivery processor from ever starting; an
unknown `sync_type` raises `ValueError` inside the try block. -/
def runFacts (env : SyncEnv) (sync_type : String) :
    List FactStep × Except String Unit :=
  if sync_type = "fact_order" then ([.order], env.orderResult)
  else if sync_type = "fact_delivery" then ([.delivery], env.deliveryResult)
  else if sync_type = "both" then
    match env.orderResult with
    | .error e => ([.order], .error e)
    | .ok _ => ([.order, .delivery], env.deliveryResult)
  else ([], .error ("Invalid sync_type: " ++ sync_type))

/-- Result of one orchestration: the audit log afterwards, the fact steps
run, and the call's result (`.error` models the re-raised exception). -/
structure SyncOutcome where
  log : List AuditRecord
  steps : List FactStep
  result : Except String Unit

/-- `run_sync` (`src/sync/manager.py` lines 99-118): ensure the log table
(a no-op here), insert one RUNNING audit record, run the requested fact
processors, then finalize that same record exactly once — SUCCESS on
success, FAILED with the exception's message verbatim on failure — and
re-raise the exception. `records_processed` is passed by neither call site,
so the parameter default 0 is always used. -/
def run_sync (env : SyncEnv) (sync_type : String) (log : List AuditRecord)
    (t0 : Nat) : SyncOutcome :=
  let started := log_sync_start log sync_type t0
  let facts := runFacts env sync_type
  match facts.2 with
  | .ok _ =>
    ⟨log_sync_complete started.1 started.2 "SUCCESS" (t0 + 1) 0 none,
     facts.1, .ok ()⟩
  | .error e =>
    ⟨log_sync_complete started.1 started.2 "FAILED" (t0 + 1) 0 (some e),
     facts.1, .error e⟩

theorem mem_le_foldr_max (ids : List Nat) (a : Nat) :
    a ∈ ids → a ≤ ids.foldr max 0 := by
  induction ids with
  | nil =>
    intro h
    exact absurd h (List.not_mem_nil a)
  | cons b l ih =>
    intro h
    rcases List.mem_cons.mp h with rfl | h2
    · exact le_max_left _ _
    · exact le_trans (ih h2) (le_max_right _ _)

theorem mem_log_id_lt_nextAuditId (log : List AuditRecord) (r : AuditRecord)
    (h : r ∈ log) : r.id < nextAuditId log :=
  Nat.lt_succ_of_le
    (mem_le_foldr_max (log.map AuditRecord.id) r.id (List.mem_map_of_mem _ h))

/-- Completing the freshly started record updates exactly the appended
record and leaves every earlier record untouched. -/
theorem log_sync_complete_fresh (log : List AuditRecord) (sync_type : String)
    (t0 : Nat) (status : String) (tEnd rp : Nat) (em : Option String) :
    log_sync_complete (log_sync_start log sync_type t0).1
        (log_sync_start log sync_type t0).2 status tEnd rp em
      = log ++ [{ id := nextAuditId log, sync_type := sync_type,
                  start_time := t0, end_time := some tEnd, status := status,
                  records_processed := rp, error_message := em }] := by
  rw [log_sync_start, log_sync_complete, List.map_append]
  congr 1
  · conv_rhs => rw [← List.map_id log]
    apply List.map_congr_left
    intro r hr
    rw [if_neg (Nat.ne_of_lt (mem_log_id_lt_nextAuditId log r hr))]
    rfl
  · rw [List.map_cons, if_pos rfl]
    rfl

/-- C5: every `run_sync` invocation — including `"both"` and even an invalid
`sync_type` — creates exactly one audit record, inserted with status RUNNING
at start; it finalizes that same record exactly once to SUCCESS or FAILED,
setting `end_time` after `start_time` (so `end_time ≥ start_time` once set);
on failure the exception's message is captured verbatim into the record and
the exception is re-raised (the `.error` result). -/
theorem run_sync_audit_lifecycle (env : SyncEnv) (sync_type : String)
    (log : List AuditRecord) (t0 : Nat) :
    (log_sync_start log sync_type t0).1
      = log ++ [{ id := nextAuditId log, sync_type := sync_type,
                  start_time := t0, end_time := none, status := "RUNNING",
                  records_processed := 0, error_message := none }]
    ∧ ∃ fin : AuditRecord,
        (run_sync env sync_type log t0).log = log ++ [fin]
        ∧ fin.id = nextAuditId log
        ∧ fin.sync_type = sync_type
        ∧ fin.start_time = t0
        ∧ fin.end_time = some (t0 + 1)
        ∧ (∀ tEnd, fin.end_time = some tEnd → fin.start_time ≤ tEnd)
        ∧ (fin.status = "SUCCESS" ∨ fin.status = "FAILED")
        ∧ ((run_sync env sync_type log t0).result = .ok ()
            → fin.status = "SUCCESS" ∧ fin.error_message = none)
        ∧ (∀ e, (run_sync env sync_type log t0).result = .error e
            → fin.status = "FAILED" ∧ fin.error_message = some e) := by
  refine ⟨rfl, ?_⟩
  simp only [run_sync]
  cases hF : (runFacts env sync_type).2 with
  | ok u =>
    simp only [hF]
    refine ⟨_, log_sync_complete_fresh log sync_type t0 "SUCCESS" (t0 + 1) 0 none,
      rfl, rfl, rfl, rfl, ?_, Or.inl rfl, fun _ => ⟨rfl, rfl⟩, ?_⟩
    · intro tEnd htEnd
      injection htEnd with h
      subst h
      exact Nat.le_succ t0
    · intro e2 he2
      exact absurd he2 (by simp)
  | error e =>
    simp only [hF]
    refine ⟨_, log_sync_complete_fresh log sync_type t0 "FAILED" (t0 + 1) 0 (some e),
      rfl, rfl, rfl, rfl, ?_, Or.inr rfl, ?_, ?_⟩
    · intro tEnd htEnd
      injection htEnd with h
      subst h
      exact Nat.le_succ t0
    · intro hok
      exact absurd hok (by simp)
    · intro e2 he2
      have h : e = e2 := by
        have := he2
        simp only [] at this
        injection this
      cases h
      exact ⟨rfl, rfl⟩

/-- Witness for C5 at a concrete environment and log. -/
theorem run_sync_audit_lifecycle_witness :
    ∃ fin : AuditRecord,
      (run_sync ⟨.ok (), .ok (), 3, 5⟩ "fact_order" [] 0).log = [] ++ [fin]
      ∧ (fin.status = "SUCCESS" ∨ fin.status = "FAILED") := by
  have h := run_sync_audit_lifecycle ⟨.ok (), .ok (), 3, 5⟩ "fact_order" [] 0
  rcases h.2 with ⟨fin, hlog, _, _, _, _, _, hstat, _, _⟩
  exact ⟨fin, hlog, hstat⟩

/-- C4: with `sync_type = "both"` the Order fact is processed strictly
before the Delivery fact; if the Order cycle raises, the Delivery cycle
never starts, the error re-raises, and the invocation's single audit record
is finalized as FAILED with the Order error verbatim; when the Order cycle
succeeds, the Delivery cycle runs after it. -/
theorem run_sync_both_order_before_delivery (env : SyncEnv)
    (log : List AuditRecord) (t0 : Nat) :
    (∀ e, env.orderResult = .error e →
      (run_sync env "both" log t0).steps = [FactStep.order]
      ∧ FactStep.delivery ∉ (run_sync env "both" log t0).steps
      ∧ (run_sync env "both" log t0).result = .error e
      ∧ (run_sync env "both" log t0).log
          = log ++ [{ id := nextAuditId log, sync_type := "both",
                      start_time := t0, end_time := some (t0 + 1),
                      status := "FAILED", records_processed := 0,
                      error_message := some e }])
    ∧ (env.orderResult = .ok ()
        → (run_sync env "both" log t0).steps
            = [FactStep.order, FactStep.delivery]) := by
  constructor
  · intro e he
    have hrf : runFacts env "both" = ([FactStep.order], Except.error e) := by
      rw [runFacts, if_neg (by decide), if_neg (by decide), if_pos rfl, he]
    have hrs : run_sync env "both" log t0 =
        ⟨log ++ [{ id := nextAuditId log, sync_type := "both",
                   start_time := t0, end_time := some (t0 + 1),
                   status := "FAILED", records_processed := 0,
                   error_message := some e }],
         [FactStep.order], .error e⟩ := by
      simp only [run_sync, hrf]
      rw [log_sync_complete_fresh]
    refine ⟨by rw [hrs], ?_, by rw [hrs], by rw [hrs]⟩
    rw [hrs]
    simp
  · intro hok
    have hrf : runFacts env "both"
        = ([FactStep.order, FactStep.delivery], env.deliveryResult) := by
      rw [runFacts, if_neg (by decide), if_neg (by decide), if_pos rfl, hok]
    simp only [run_sync, hrf]
    cases env.deliveryResult <;> rfl

/-- Witness for C4: a source database failing on the Order cycle. -/
theorem run_sync_both_order_before_delivery_witness :
    (run_sync ⟨.error "order extraction failed", .ok (), 3, 5⟩
      "both" [] 0).steps = [FactStep.order]
    ∧ (run_sync ⟨.error "order extraction failed", .ok (), 3, 5⟩
      "both" [] 0).result = .error "order extraction failed" := by
  have h := (run_sync_both_order_before_delivery
    ⟨.error "order extraction failed", .ok (), 3, 5⟩ [] 0).1
    "order extraction failed" rfl
  exact ⟨h.1, h.2.2.1⟩

/-- C10: the finalized audit record of every `run_sync` invocation has
`records_processed = 0`, no matter how many rows the fact processors
extracted and merged — neither finalizing call passes a row count, so the
parameter default 0 is always stored. -/
theorem run_sync_records_processed_always_zero (env : SyncEnv)
    (sync_type : String) (log : List AuditRecord) (t0 : Nat) :
    ∃ fin : AuditRecord,
      (run_sync env sync_type log t0).log = log ++ [fin]
      ∧ fin.end_time = some (t0 + 1)
      ∧ fin.records_processed = 0 := by
  simp only [run_sync]
  cases hF : (runFacts env sync_type).2 with
  | ok u =>
    simp only [hF]
    exact ⟨_, log_sync_complete_fresh log sync_type t0 "SUCCESS" (t0 + 1) 0 none,
      rfl, rfl⟩
  | error e =>
    simp only [hF]
    exact ⟨_, log_sync_complete_fresh log sync_type t0 "FAILED" (t0 + 1) 0 (some e),
      rfl, rfl⟩

/-! ## Extraction query date shaping (`src/sync/fact_order.py`,
`src/sync/fact_delivery.py`)

Calendar dates are year/month/day triples compared lexicographically (SQL
`DATE` order); timestamps are a date plus a second-of-day (SQL `TIMESTAMP`
order; a date literal cast to timestamp is midnight of that date). -/

/-- A calendar date. -/
structure Date where
  year : Nat
  month : Nat
  day : Nat
deriving DecidableEq, Repr

/-- SQL `DATE` comparison: lexicographic year, month, day. -/
def dateLe (a b : Date) : Bool :=
  Nat.blt a.year b.year
    || (Nat.beq a.year b.year
        && (Nat.blt a.month b.month
            || (Nat.beq a.month b.month && Nat.ble a.day b.day)))

/-- A timestamp: calendar date plus second of day. -/
structure Timestamp where
  date : Date
  secondOfDay : Nat
deriving DecidableEq, Repr

/-- SQL `TIMESTAMP` comparison. -/
def tsLe (a b : Timestamp) : Bool :=
  if a.date = b.date then Nat.ble a.secondOfDay b.secondOfDay
  else dateLe a.date b.date

/-- Lower bound of the queries' plausible calendar range (`'1900-01-01'`). -/
def plausibleMinDate : Date := ⟨1900, 1, 1⟩

/-- Upper bound of the queries' plausible calendar range (`'2100-12-31'`). -/
def plausibleMaxDate : Date := ⟨2100, 12, 31⟩

/-- The `CASE WHEN d >= '1900-01-01'::date AND d <= '2100-12-31'::date`
guard condition. -/
def dateInPlausibleRange (d : Date) : Bool :=
  dateLe plausibleMinDate d && dateLe d plausibleMaxDate

/-- The timestamp variant of the guard: `'1900-01-01'::timestamp` and
`'2100-12-31'::timestamp` are midnight of those dates. -/
def tsInPlausibleRange (t : Timestamp) : Bool :=
  tsLe ⟨plausibleMinDate, 0⟩ t && tsLe t ⟨plausibleMaxDate, 0⟩

/-- The date-typed columns of one source row feeding the Order fact query
(`get_fact_order_query`, `src/sync/fact_order.py` lines 19-51): `a` is the
order row, `c` the (nullable) joined route, `g` the (nullable) joined driver
task confirmation. Columns of other types do not bear on the date-shaping
claims and are omitted. -/
structure OrderSourceRow where
  order_id : Nat
  faktur_date : Date
  created_date : Timestamp
  route_created_date : Option Timestamp
  delivery_date : Option Date
  location_confirmation_timestamp : Option Timestamp
deriving DecidableEq, Repr

/-- The date-typed output columns of the Order fact query. -/
structure OrderOutRow where
  order_id : Nat
  faktur_date : Date
  tms_created : Timestamp
  route_created : Option Date
  delivery_date : Option Date
  location_confirmation : Option Date
deriving DecidableEq, Repr

/-- Per-row column shaping of the Order fact SELECT list
(`src/sync/fact_order.py` lines 28-34): `faktur_date` and `a.created_date`
pass through unguarded; `route_created` is only null-guarded and cast to a
date; `delivery_date` and `location_confirmation` are nulled when outside
1900-01-01 .. 2100-12-31. -/
def factOrderShape (r : OrderSourceRow) : OrderOutRow :=
  { order_id := r.order_id
    faktur_date := r.faktur_date
    tms_created := r.created_date
    route_created := r.route_created_date.map Timestamp.date
    delivery_date :=
      match r.delivery_date with
      | some d => if dateInPlausibleRange d then some d else none
      | none => none
    location_confirmation :=
      match r.location_confirmation_timestamp with
      | some t => if tsInPlausibleRange t then some t.date else none
      | none => none }

/-- The Order fact extraction window (`where_clause` of
`get_fact_order_query`, lines 7-17): `date_from` defaults to 2024-12-01 and
`date_to` to `CURRENT_DATE` (`today`); a source row is selected iff its
`faktur_date` lies inclusively inside the window. -/
def factOrderRowSelected (date_from date_to : Option Date) (today : Date)
    (r : OrderSourceRow) : Bool :=
  dateLe (date_from.getD ⟨2024, 12, 1⟩) r.faktur_date
    && dateLe r.faktur_date (date_to.getD today)

/-- Lower bound of the `pandas.Timestamp` representable range. -/
def pandasMinDate : Date := ⟨1677, 9, 21⟩

/-- Upper bound of the `pandas.Timestamp` representable range. -/
def pandasMaxDate : Date := ⟨2262, 4, 11⟩

/-- `pd.to_datetime(col, errors='coerce').dt.date` applied to a calendar
date: the value survives unless it falls outside the pandas-representable
range, in which case it becomes `NaT` (absence). -/
def pandasCoerceDate (d : Date) : Option Date :=
  if dateLe pandasMinDate d && dateLe d pandasMaxDate then some d else none

/-- The Order fact row as staged after `process_fact_order`'s coercions
(`src/sync/fact_order.py` lines 92-100): `route_created`,
`location_confirmation`, `faktur_date` and `delivery_date` are re-parsed
with `errors='coerce'`; `tms_created` is not coerced. -/
structure OrderFinalRow where
  order_id : Nat
  faktur_date : Option Date
  tms_created : Timestamp
  route_created : Option Date
  delivery_date : Option Date
  location_confirmation : Option Date
deriving DecidableEq, Repr

/-- The pandas coercion step of `process_fact_order`, per row. -/
def processOrderRowCoerce (r : OrderOutRow) : OrderFinalRow :=
  { order_id := r.order_id
    faktur_date := pandasCoerceDate r.faktur_date
    tms_created := r.tms_created
    route_created := r.route_created.bind pandasCoerceDate
    delivery_date := r.delivery_date.bind pandasCoerceDate
    location_confirmation := r.location_confirmation.bind pandasCoerceDate }

/-- The date-typed columns of one source row feeding the Delivery fact query
(`get_fact_delivery_query`, `src/sync/fact_delivery.py` lines 19-66): `a`
is the route row, `c` the (nullable) joined order, `i` the (nullable)
joined driver task. -/
structure DeliverySourceRow where
  route_id : Nat
  route_detail_id : Nat
  order_id : Nat
  faktur_date : Date
  created_date : Timestamp
  delivery_date : Option Date
  complete_time : Option Timestamp
deriving DecidableEq, Repr

/-- The date-typed output columns of the Delivery fact query. -/
structure DeliveryOutRow where
  route_id : Nat
  route_detail_id : Nat
  order_id : Nat
  faktur_date : Date
  created_date_only : Date
  waktu : Nat
  delivery_date : Option Date
  complete_time : Option Timestamp
deriving DecidableEq, Repr

/-- Per-row shaping of the Delivery fact SELECT list: only `delivery_date`
carries the 1900..2100 range guard (`src/sync/fact_delivery.py` line 29);
`faktur_date`, `created_date_only` (`DATE(a.created_date)`), `waktu` (its
time of day) and `complete_time` pass through unguarded. -/
def factDeliveryShape (r : DeliverySourceRow) : DeliveryOutRow :=
  { route_id := r.route_id
    route_detail_id := r.route_detail_id
    order_id := r.order_id
    faktur_date := r.faktur_date
    created_date_only := r.created_date.date
    waktu := r.created_date.secondOfDay
    delivery_date :=
      match r.delivery_date with
      | some d => if dateInPlausibleRange d then some d else none
      | none => none
    complete_time := r.complete_time }

/-- C8 as stated is false: `faktur_date` is a date column with no range
guard — a source row with `faktur_date = 1800-01-01` (outside the plausible
range) is selected by a caller-supplied extraction window, survives both the
SELECT shaping and the pandas coercion, and is persisted as 1800-01-01
instead of being nulled. -/
theorem implausible_faktur_date_passes_through :
    factOrderRowSelected (some ⟨1799, 1, 1⟩) (some ⟨2024, 1, 1⟩) ⟨2026, 10, 12⟩
      ⟨1, ⟨1800, 1, 1⟩, ⟨⟨2025, 1, 1⟩, 0⟩, none, none, none⟩ = true
    ∧ dateInPlausibleRange ⟨1800, 1, 1⟩ = false
    ∧ (processOrderRowCoerce (factOrderShape
        ⟨1, ⟨1800, 1, 1⟩, ⟨⟨2025, 1, 1⟩, 0⟩, none, none, none⟩)).faktur_date
      = some ⟨1800, 1, 1⟩ := by
  exact ⟨rfl, rfl, rfl⟩

/-- C8 amended: the range-nulling applies exactly to the guarded columns —
`delivery_date` and `location_confirmation` in the Order fact and
`delivery_date` in the Delivery fact: a value outside
1900-01-01..2100-12-31 in those columns is replaced by an explicit absence
rather than passed through; the remaining date columns are not guarded. -/
theorem guarded_date_columns_nulled (ro : OrderSourceRow)
    (rd : DeliverySourceRow) (d : Date) (t : Timestamp)
    (hd : dateInPlausibleRange d = false)
    (ht : tsInPlausibleRange t = false) :
    (factOrderShape { ro with delivery_date := some d }).delivery_date = none
    ∧ (factOrderShape { ro with
        location_confirmation_timestamp := some t }).location_confirmation = none
    ∧ (factDeliveryShape { rd with delivery_date := some d }).delivery_date = none := by
  refine ⟨?_, ?_, ?_⟩
  · simp [factOrderShape, hd]
  · simp [factOrderShape, ht]
  · simp [factDeliveryShape, hd]

/-- Witness for C8 (amended) at concrete out-of-range values. -/
theorem guarded_date_columns_nulled_witness :
    dateInPlausibleRange ⟨1800, 1, 1⟩ = false
    ∧ tsInPlausibleRange ⟨⟨2101, 1, 1⟩, 0⟩ = false
    ∧ (factOrderShape ⟨1, ⟨2025, 1, 1⟩, ⟨⟨2025, 1, 1⟩, 0⟩, none,
        some ⟨1800, 1, 1⟩, none⟩).delivery_date = none := by
  have h := guarded_date_columns_nulled
    ⟨1, ⟨2025, 1, 1⟩, ⟨⟨2025, 1, 1⟩, 0⟩, none, some ⟨1800, 1, 1⟩, none⟩
    ⟨1, 1, 1, ⟨2025, 1, 1⟩, ⟨⟨2025, 1, 1⟩, 0⟩, none, none⟩
    ⟨1800, 1, 1⟩ ⟨⟨2101, 1, 1⟩, 0⟩ (by decide) (by decide)
  exact ⟨by decide, by decide, h.1⟩

/-! ## Sync submission boundary (`src/app.py`)

`api_sync_run` takes the request payload's raw strings, strips them, parses
the dates with `_parse_date` (which returns `None` instead of raising on
anything malformed), rejects only an invalid `sync_type` with HTTP 400, and
otherwise records a PENDING job and schedules the orchestration. Job ids
are opaque (`uuid4`); modelled as the index of the new job. -/

/-- Drop leading whitespace characters. -/
def dropLeadingWs : List Char → List Char
  | [] => []
  | c :: cs => if c.isWhitespace then dropLeadingWs cs else c :: cs

/-- Python `str.strip()`: drop leading and trailing whitespace. -/
def pyStrip (s : String) : String :=
  ⟨(dropLeadingWs ((dropLeadingWs s.data).reverse)).reverse⟩

/-- Split a character list on `'-'` (the separators of `%Y-%m-%d`). -/
def splitDash : List Char → List (List Char)
  | [] => [[]]
  | c :: cs =>
    if c = '-' then [] :: splitDash cs
    else
      match splitDash cs with
      | [] => [[c]]
      | g :: gs => (c :: g) :: gs

/-- The numeric value of a digit string. -/
def digitsToNat (cs : List Char) : Nat :=
  cs.foldl (fun n c => n * 10 + (c.toNat - 48)) 0

/-- Gregorian leap year. -/
def isLeapYear (y : Nat) : Bool :=
  (Nat.beq (y % 4) 0 && !Nat.beq (y % 100) 0) || Nat.beq (y % 400) 0

/-- Days in a month (calendar validation `strptime` performs). -/
def daysInMonth (y m : Nat) : Nat :=
  if m = 2 then (if isLeapYear y then 29 else 28)
  else if m = 4 ∨ m = 6 ∨ m = 9 ∨ m = 11 then 30
  else 31

/-- `_parse_date` (`src/app.py` lines 585-591): empty input and anything
`datetime.strptime(s, "%Y-%m-%d")` raises on become `None`; a valid
`YYYY-MM-DD` date becomes that date. `strptime` accepts 1-4 year digits and
1-2 month/day digits and validates the calendar (month 1-12, day within the
month, leap-year February). -/
def parseDate (s : String) : Option Date :=
  if s.data.isEmpty then none
  else
    match splitDash s.data with
    | [ys, ms, ds] =>
      if (!ys.isEmpty && ys.all Char.isDigit && Nat.ble ys.length 4
          && !ms.isEmpty && ms.all Char.isDigit && Nat.ble ms.length 2
          && !ds.isEmpty && ds.all Char.isDigit && Nat.ble ds.length 2) then
        if 1 ≤ digitsToNat ms ∧ digitsToNat ms ≤ 12
            ∧ 1 ≤ digitsToNat ds
            ∧ digitsToNat ds ≤ daysInMonth (digitsToNat ys) (digitsToNat ms) then
          some ⟨digitsToNat ys, digitsToNat ms, digitsToNat ds⟩
        else none
      else none
    | _ => none

/-- A `POST /api/sync/run` payload after `str(...)` of its fields. -/
structure SyncRequest where
  sync_type : String
  date_from : String
  date_to : String
deriving DecidableEq, Repr

/-- An in-memory job record as created by `api_sync_run`
(`src/app.py` line 620); the (already parsed) date bounds stand for the
`str(date_from or "")` strings the source stores. -/
structure Job where
  status : String
  sync_type : String
  date_from : Option Date
  date_to : Option Date
deriving DecidableEq, Repr

/-- The boundary's synchronous response. -/
inductive RunResponse where
  | rejected (httpStatus : Nat) (message : String)
  | accepted (jobId : Nat)
deriving DecidableEq, Repr

/-- The accepted `sync_type` values (`src/app.py` line 610). -/
def validSyncTypes : List String := ["fact_order", "fact_delivery", "both"]

/-- `api_sync_run` (`src/app.py` lines 604-635): strip and parse the
payload (parsing never raises — malformed dates become `None`), reject with
400 only when `sync_type` is invalid, and otherwise append a PENDING job
record and accept. The scheduled background task (which runs `run_sync`) is
implied by the job's existence. -/
def api_sync_run (req : SyncRequest) (jobs : List Job) :
    RunResponse × List Job :=
  if pyStrip req.sync_type ∈ validSyncTypes then
    (RunResponse.accepted jobs.length,
     jobs ++ [{ status := "PENDING", sync_type := pyStrip req.sync_type,
                date_from := parseDate (pyStrip req.date_from),
                date_to := parseDate (pyStrip req.date_to) }])
  else
    (RunResponse.rejected 400 "sync_type must be fact_order|fact_delivery|both",
     jobs)

/-- C7 as stated is false: a submission whose `date_from` is malformed is
NOT rejected — `_parse_date` silently returns `None` for it, the
`sync_type` check passes, and a PENDING job record is created (whose
background task then reaches the orchestrator). -/
theorem malformed_date_still_creates_job :
    parseDate "bad-date" = none
    ∧ api_sync_run ⟨"fact_order", "bad-date", ""⟩ []
      = (RunResponse.accepted 0,
         [{ status := "PENDING", sync_type := "fact_order",
            date_from := none, date_to := none }]) := by
  exact ⟨rfl, rfl⟩

/-- C7 amended: the boundary rejects synchronously — creating no job —
exactly when the stripped `sync_type` is invalid; a malformed date never
causes rejection: it is coerced to absence and, whenever `sync_type` is
valid, a PENDING job carrying the parsed (possibly absent) bounds is
created and proceeds to the orchestrator. -/
theorem api_sync_run_rejects_only_bad_sync_type (req : SyncRequest)
    (jobs : List Job) (hbad : pyStrip req.sync_type ∉ validSyncTypes) :
    (api_sync_run req jobs).1
      = RunResponse.rejected 400 "sync_type must be fact_order|fact_delivery|both"
    ∧ (api_sync_run req jobs).2 = jobs
    ∧ ∀ req2 : SyncRequest, pyStrip req2.sync_type ∈ validSyncTypes →
        (api_sync_run req2 jobs).2
          = jobs ++ [{ status := "PENDING",
                       sync_type := pyStrip req2.sync_type,
                       date_from := parseDate (pyStrip req2.date_from),
                       date_to := parseDate (pyStrip req2.date_to) }] := by
  refine ⟨?_, ?_, ?_⟩
  · rw [api_sync_run, if_neg hbad]
  · rw [api_sync_run, if_neg hbad]
  · intro req2 hgood
    rw [api_sync_run, if_pos hgood]

/-- Witness for C7 (amended): an unknown `sync_type` is rejected with no
job created. -/
theorem api_sync_run_rejects_only_bad_sync_type_witness :
    (api_sync_run ⟨"unknown", "2025-01-01", ""⟩ []).2 = []
    ∧ (api_sync_run ⟨"unknown", "2025-01-01", ""⟩ []).1
      = RunResponse.rejected 400 "sync_type must be fact_order|fact_delivery|both" := by
  have h := api_sync_run_rejects_only_bad_sync_type
    ⟨"unknown", "2025-01-01", ""⟩ [] (by decide)
  exact ⟨h.2.1, h.1⟩

end ArmosTools
